import Mathlib

/-!
Verification of the solanabotV6 position risk-management engine and
execution coordinator.  The definitions below are a shallow embedding of
the TypeScript sources:

* `src/utils/handlers/positionManager.ts` (position store and per-tick
  risk state machine),
* `src/core/tradingEngine.ts` (single-flight coordinator with a bounded
  queue),
* `src/utils/handlers/balanceManager.ts` (balance snapshot and sizing),
* `src/utils/handlers/priceFeedHandler.ts` (failure tracking),
* `src/utils/handlers/enhancedSniperooHandler.ts` (emergency sell sweep).

Numbers are modelled as rationals; external trade/sell outcomes are
supplied by explicit oracles; notifications and sell attempts are recorded
as an event trace.
-/

namespace SolanaBot

/-! ## Configuration (mirrors `config.advanced_trading` in `src/index.ts`) -/

structure BreakevenConfig where
  enabled : Bool
  trigger_profit_percent : ℚ
  breakeven_offset_percent : ℚ
deriving Repr

structure TrailingStopConfig where
  enabled : Bool
  activation_profit_percent : ℚ
  trailing_distance_percent : ℚ
deriving Repr

structure TPLevel where
  profit_percent : ℚ
  sell_percent : ℚ
  description : String
deriving DecidableEq, Repr

structure TakeProfitGridConfig where
  enabled : Bool
  levels : List TPLevel
deriving Repr

structure RiskConfig where
  initial_stop_loss_percent : ℚ
  breakeven : BreakevenConfig
  trailing_stop : TrailingStopConfig
  take_profit_grid : TakeProfitGridConfig
deriving Repr

/-! ## Position record (mirrors `Position` in `positionManager.ts`) -/

structure Position where
  tokenAddress : String
  entryPrice : ℚ
  entryAmount : ℚ
  remainingAmount : ℚ
  currentStopLoss : ℚ
  isBreakevenMoved : Bool
  isTrailingActive : Bool
  highestPrice : ℚ
  executedTpLevels : List ℕ
  totalSold : ℚ
deriving DecidableEq, Repr

/-- Outcomes of the external Sniperoo sell calls made during one tick:
`stopLossOk` is the result of the full-exit sell attempted by
`checkStopLoss`, and `tpOk i` the result of the partial sell attempted for
take-profit level `i` by `checkTakeProfitGrid`. -/
structure SellOracle where
  stopLossOk : Bool
  tpOk : ℕ → Bool

/-- Observable events of one `updatePosition` tick: sell attempts with
their success flag, the Telegram notifications for breakeven / trailing,
and the `notifyError` operator alert sent on a failed take-profit sell. -/
inductive Event where
  | slSell (pct : ℚ) (ok : Bool)
  | breakevenMoved (newSL : ℚ)
  | trailingActivated
  | tpSell (level : ℕ) (pct : ℚ) (ok : Bool)
  | tpFailAlert (level : ℕ)
deriving DecidableEq, Repr

/-- `AdvancedPositionManager.addPosition` (positionManager.ts line 67). -/
def addPosition (cfg : RiskConfig) (tokenAddress : String)
    (entryPrice entryAmount : ℚ) : Position :=
  { tokenAddress := tokenAddress
    entryPrice := entryPrice
    entryAmount := entryAmount
    remainingAmount := entryAmount
    currentStopLoss := entryPrice * (1 - cfg.initial_stop_loss_percent / 100)
    isBreakevenMoved := false
    isTrailingActive := false
    highestPrice := entryPrice
    executedTpLevels := []
    totalSold := 0 }

/-- `checkStopLoss` (positionManager.ts line 148).  Returns whether the
position was closed (sell succeeded) together with the sell-attempt
events; when the exit sell fails the caller carries on with the tick. -/
def checkStopLoss (oracle : SellOracle) (currentPrice : ℚ) (p : Position) :
    Bool × List Event :=
  if currentPrice ≤ p.currentStopLoss then
    if oracle.stopLossOk then (true, [.slSell (100 - p.totalSold) true])
    else (false, [.slSell (100 - p.totalSold) false])
  else (false, [])

/-- `checkBreakevenMove` (positionManager.ts line 189). -/
def checkBreakevenMove (cfg : RiskConfig) (profitPercent : ℚ) (p : Position) :
    Position × List Event :=
  if p.isBreakevenMoved then (p, [])
  else if !cfg.breakeven.enabled then (p, [])
  else if cfg.breakeven.trigger_profit_percent ≤ profitPercent then
    let newStopLoss := p.entryPrice * (1 + cfg.breakeven.breakeven_offset_percent / 100)
    ({ p with currentStopLoss := newStopLoss, isBreakevenMoved := true },
     [.breakevenMoved newStopLoss])
  else (p, [])

/-- `checkTrailingStopActivation` (positionManager.ts line 216). -/
def checkTrailingStopActivation (cfg : RiskConfig) (profitPercent : ℚ) (p : Position) :
    Position × List Event :=
  if p.isTrailingActive then (p, [])
  else if !cfg.trailing_stop.enabled then (p, [])
  else if cfg.trailing_stop.activation_profit_percent ≤ profitPercent then
    ({ p with isTrailingActive := true }, [.trailingActivated])
  else (p, [])

/-- `updateTrailingStop` (positionManager.ts line 241): only moves the
stop up, never down. -/
def updateTrailingStop (cfg : RiskConfig) (p : Position) : Position :=
  if !p.isTrailingActive then p
  else
    let trailingStopPrice :=
      p.highestPrice * (1 - cfg.trailing_stop.trailing_distance_percent / 100)
    if p.currentStopLoss < trailingStopPrice then
      { p with currentStopLoss := trailingStopPrice }
    else p

/-- The mutation applied on a successful partial take-profit sell
(positionManager.ts lines 283-285). -/
def applyTpSell (p : Position) (i : ℕ) (lv : TPLevel) : Position :=
  { p with
    executedTpLevels := p.executedTpLevels ++ [i]
    totalSold := p.totalSold + lv.sell_percent
    remainingAmount := p.entryAmount * (1 - (p.totalSold + lv.sell_percent) / 100) }

/-- The level loop of `checkTakeProfitGrid` (positionManager.ts
lines 265-318).  `none` means the position was removed because
`totalSold` reached the 99.9 full-exit threshold. -/
def processLevels (oracle : SellOracle) (profitPercent : ℚ) :
    List (ℕ × TPLevel) → Position → Option Position × List Event
  | [], p => (some p, [])
  | (i, lv) :: rest, p =>
    if i ∈ p.executedTpLevels then processLevels oracle profitPercent rest p
    else if profitPercent < lv.profit_percent then processLevels oracle profitPercent rest p
    else if oracle.tpOk i then
      let p' := applyTpSell p i lv
      if (99.9 : ℚ) ≤ p'.totalSold then (none, [.tpSell i lv.sell_percent true])
      else
        let r := processLevels oracle profitPercent rest p'
        (r.1, .tpSell i lv.sell_percent true :: r.2)
    else
      let r := processLevels oracle profitPercent rest p
      (r.1, .tpSell i lv.sell_percent false :: .tpFailAlert i :: r.2)

/-- `checkTakeProfitGrid` (positionManager.ts line 258). -/
def checkTakeProfitGrid (cfg : RiskConfig) (oracle : SellOracle)
    (profitPercent : ℚ) (p : Position) : Option Position × List Event :=
  if !cfg.take_profit_grid.enabled then (some p, [])
  else processLevels oracle profitPercent cfg.take_profit_grid.levels.enum p

/-- The unconditional `highestPrice` update at the top of `updatePosition`
(positionManager.ts lines 121-123). -/
def bumpHighest (currentPrice : ℚ) (p : Position) : Position :=
  if p.highestPrice < currentPrice then { p with highestPrice := currentPrice } else p

/-- `updatePosition` (positionManager.ts line 114): one price tick of the
risk state machine.  `none` means the position was removed this tick. -/
def updatePosition (cfg : RiskConfig) (oracle : SellOracle) (currentPrice : ℚ)
    (p0 : Position) : Option Position × List Event :=
  let profitPercent := (currentPrice - p0.entryPrice) / p0.entryPrice * 100
  let p1 := bumpHighest currentPrice p0
  let sl := checkStopLoss oracle currentPrice p1
  if sl.1 then (none, sl.2)
  else
    let be := checkBreakevenMove cfg profitPercent p1
    let ta := checkTrailingStopActivation cfg profitPercent be.1
    let p4 := updateTrailingStop cfg ta.1
    let tp := checkTakeProfitGrid cfg oracle profitPercent p4
    (tp.1, sl.2 ++ be.2 ++ ta.2 ++ tp.2)

/-- A sequence of ticks, each with its own oracle and observed price;
stops as soon as the position is removed. -/
def run (cfg : RiskConfig) : List (SellOracle × ℚ) → Position → Option Position
  | [], p => some p
  | (o, price) :: rest, p =>
    match (updatePosition cfg o price p).1 with
    | none => none
    | some p' => run cfg rest p'

/-! ## Position store (the `positions : Map<string, Position>` registry) -/

/-- `Map.set` semantics: replace the binding when the key is present,
append it otherwise. -/
def mapSet : List (String × Position) → String → Position → List (String × Position)
  | [], k, p => [(k, p)]
  | (k', p') :: rest, k, p =>
    if k' = k then (k, p) :: rest else (k', p') :: mapSet rest k p

/-! ## Trading engine (`src/core/tradingEngine.ts`) -/

def MAX_QUEUE_SIZE : ℕ := 5

structure TradeResult where
  success : Bool
  tokenAddress : String
  amount : ℚ
  price : Option ℚ
  error : Option String
deriving DecidableEq, Repr

structure EngineState where
  isTrading : Bool
  tradingQueue : List String
deriving DecidableEq, Repr

/-- Outcome of the in-flight body of `executeTrade` (decision gate, buy
submission, possible thrown exception), supplied as an oracle for the
external calls it makes. -/
inductive BodyOutcome where
  | precheckFail (reason : String)
  | purchaseFail (buyAmount : ℚ)
  | purchaseOk (buyAmount price : ℚ)
  | exn (msg : String)
deriving DecidableEq, Repr

/-- `processQueue` (tradingEngine.ts line 928): dequeue and resubmit one
token unless the queue is empty or a trade is in flight. -/
def processQueue (s : EngineState) : EngineState × Option String :=
  if s.tradingQueue.length = 0 || s.isTrading then (s, none)
  else ({ s with tradingQueue := s.tradingQueue.tail }, s.tradingQueue.head?)

/-- Everything one call of `executeTrade` produces: the engine state after
the call returns, the returned `TradeResult`, the buy submitted to the
execution service (if any), and the queued token resubmitted by the
`finally`-step's `processQueue` (if any). -/
structure ExecOutput where
  state : EngineState
  result : TradeResult
  buySubmitted : Option (String × ℚ)
  dequeued : Option String
deriving DecidableEq, Repr

/-- `TradingEngine.executeTrade` (tradingEngine.ts line 771).  The busy
branch enqueues (or drops) and returns a failed result; otherwise the
body runs with outcome `oc` and the `finally` step clears the in-flight
flag and drains one queued token. -/
def executeTrade (s : EngineState) (tokenAddress : String) (oc : BodyOutcome) :
    ExecOutput :=
  if s.isTrading then
    { state :=
        { s with tradingQueue :=
            if s.tradingQueue.length < MAX_QUEUE_SIZE then s.tradingQueue ++ [tokenAddress]
            else s.tradingQueue }
      result :=
        { success := false, tokenAddress := tokenAddress, amount := 0
          price := none, error := some "Trading in progress" }
      buySubmitted := none
      dequeued := none }
  else
    let result : TradeResult :=
      match oc with
      | .precheckFail reason =>
          { success := false, tokenAddress := tokenAddress, amount := 0
            price := none, error := some reason }
      | .purchaseFail amt =>
          { success := false, tokenAddress := tokenAddress, amount := amt
            price := none, error := some "Purchase failed" }
      | .purchaseOk amt price =>
          { success := true, tokenAddress := tokenAddress, amount := amt
            price := some price, error := none }
      | .exn msg =>
          { success := false, tokenAddress := tokenAddress, amount := 0
            price := none, error := some msg }
    let buySubmitted : Option (String × ℚ) :=
      match oc with
      | .purchaseFail amt => some (tokenAddress, amt)
      | .purchaseOk amt _ => some (tokenAddress, amt)
      | _ => none
    let q := processQueue { isTrading := false, tradingQueue := s.tradingQueue }
    { state := q.1, result := result, buySubmitted := buySubmitted, dequeued := q.2 }

/-! ## Balance manager (`src/utils/handlers/balanceManager.ts`) -/

structure TokenBuyConfig where
  buy_mode : String
  balance_percentage : ℚ
  min_sol_amount : ℚ
  max_sol_amount : ℚ
  reserve_sol : ℚ
  sol_amount : ℚ
deriving Repr

/-- JavaScript `x || d` on numbers: `0` is falsy, anything else is kept. -/
def jsOr (x d : ℚ) : ℚ := if x = 0 then d else x

/-- `BalanceManager.calculateBuyAmount` (balanceManager.ts line 89);
returns `(buyAmount, percentageUsed)`. -/
def calculateBuyAmount (cfg : TokenBuyConfig) (availableBalance : ℚ) : ℚ × ℚ :=
  if cfg.buy_mode = "percentage" then
    let percentageAmount := availableBalance * cfg.balance_percentage / 100
    let minAmount := jsOr cfg.min_sol_amount 0.01
    let maxAmount := jsOr cfg.max_sol_amount 1.0
    let clamped := max minAmount (min percentageAmount maxAmount)
    let clamped' := min clamped availableBalance
    (clamped', cfg.balance_percentage)
  else
    let fixedAmount := jsOr cfg.sol_amount 0.1
    let finalAmount := min fixedAmount availableBalance
    (finalAmount,
     if 0 < availableBalance then finalAmount / availableBalance * 100 else 0)

structure BalanceInfo where
  solBalance : ℚ
  availableForTrading : ℚ
  calculatedBuyAmount : ℚ
  reservedAmount : ℚ
deriving Repr

/-- The fresh-fetch path of `BalanceManager.getBalance` (balanceManager.ts
line 41), given the wallet balance reported by the RPC node. -/
def getBalanceFresh (cfg : TokenBuyConfig) (solBalance : ℚ) : BalanceInfo :=
  let reservedAmount := jsOr cfg.reserve_sol 0.15
  let availableForTrading := max 0 (solBalance - reservedAmount)
  let buy := calculateBuyAmount cfg availableForTrading
  { solBalance := solBalance
    availableForTrading := availableForTrading
    calculatedBuyAmount := buy.1
    reservedAmount := reservedAmount }

structure AffordCheck where
  canTrade : Bool
  reason : Option String
deriving Repr

/-- `BalanceManager.canAffordTrade` (balanceManager.ts line 134), on a
successfully fetched balance. -/
def canAffordTrade (cfg : TokenBuyConfig) (balance : BalanceInfo) : AffordCheck :=
  if balance.solBalance < balance.reservedAmount then
    { canTrade := false
      reason := some ("Insufficient balance (need " ++ toString balance.reservedAmount
        ++ " SOL reserve)") }
  else if balance.calculatedBuyAmount ≤ 0 then
    { canTrade := false, reason := some "Insufficient balance after reserve" }
  else
    let minAmount := jsOr cfg.min_sol_amount 0.01
    if balance.calculatedBuyAmount < minAmount then
      { canTrade := false
        reason := some ("Amount below minimum (" ++ toString minAmount ++ " SOL)") }
    else { canTrade := true, reason := none }

/-! ## Price feed failure tracking (`priceFeedHandler.ts`) -/

def MAX_FAILURES_BEFORE_WARNING : ℕ := 3

/-- `PriceFeedHandler.trackFailure` (priceFeedHandler.ts line 159):
increments the per-token count and says whether the one-shot operator
alert fires (exactly when the count reaches the threshold). -/
def trackFailure (failureCount : ℕ) : ℕ × Bool :=
  let newCount := failureCount + 1
  (newCount, newCount = MAX_FAILURES_BEFORE_WARNING)

/-- One `getTokenPrice` outcome for a token: a success resets the failure
count (`failureCount.delete`), a failure runs `trackFailure`. -/
def priceFetchStep (count : ℕ) (ok : Bool) : ℕ × Bool :=
  if ok then (0, false) else trackFailure count

/-- Total number of operator alerts produced by a sequence of
`getTokenPrice` outcomes for one token. -/
def priceFetchAlerts : ℕ → List Bool → ℕ
  | _, [] => 0
  | count, ok :: rest =>
    let st := priceFetchStep count ok
    (if st.2 then 1 else 0) + priceFetchAlerts st.1 rest

/-! ## Emergency stop (`tradingEngine.ts` line 975 and
`enhancedSniperooHandler.emergencySellAll`) -/

structure WalletPosition where
  tokenAddress : String
  positionId : String
deriving DecidableEq, Repr

structure EmergencySellResult where
  total : ℕ
  successful : ℕ
  failed : ℕ
deriving DecidableEq, Repr

/-- `EnhancedSniperooHandler.emergencySellAll`: sells 100% of every wallet
holding, collecting per-position outcomes; failures never abort the
sweep. -/
def emergencySellAll (holdings : List WalletPosition) (sellOk : String → Bool) :
    EmergencySellResult :=
  { total := holdings.length
    successful := (holdings.filter (fun pos => sellOk pos.positionId)).length
    failed := (holdings.filter (fun pos => !sellOk pos.positionId)).length }

/-- The process state touched by `TradingEngine.emergencyStop`: the
coordinator state, the position manager's registry, and the wallet
holdings held at the execution service. -/
structure SystemState where
  engine : EngineState
  positions : List (String × Position)
  walletHoldings : List WalletPosition

/-- `TradingEngine.emergencyStop` (tradingEngine.ts line 975): clears the
in-flight flag and the queue, then sells every wallet holding through
`emergencySellAll`.  The position registry is not touched. -/
def emergencyStop (s : SystemState) (sellOk : String → Bool) :
    SystemState × EmergencySellResult :=
  let result := emergencySellAll s.walletHoldings sellOk
  ({ engine := { isTrading := false, tradingQueue := [] }
     positions := s.positions
     walletHoldings := s.walletHoldings.filter (fun pos => !sellOk pos.positionId) },
   result)

/-! ## Derived / spec-side notions used in the statements -/

/-- The initial stop loss a position starts with in `addPosition`. -/
def initStopLoss (cfg : RiskConfig) (p : Position) : ℚ :=
  p.entryPrice * (1 - cfg.initial_stop_loss_percent / 100)

/-- The candidate trailing floor computed by `updateTrailingStop`. -/
def trailStop (cfg : RiskConfig) (p : Position) : ℚ :=
  p.highestPrice * (1 - cfg.trailing_stop.trailing_distance_percent / 100)

/-- Invariant tying `currentStopLoss` to the flags: while the breakeven
move has not happened, the stop is either still the initial one or was
raised by the (active) trailing logic, in which case it is bounded by the
current trailing candidate. -/
def SLInv (cfg : RiskConfig) (p : Position) : Prop :=
  p.isBreakevenMoved = false →
    (p.currentStopLoss = initStopLoss cfg p ∨
     (p.isTrailingActive = true ∧ p.currentStopLoss ≤ trailStop cfg p))

/-- The `sellPct` values of the successful take-profit sells recorded in
an event trace. -/
def successPcts (evs : List Event) : List ℚ :=
  evs.filterMap fun e =>
    match e with
    | .tpSell _ pct true => some pct
    | _ => none

/-- Number of failed take-profit sell attempts in an event trace. -/
def tpFailCount (evs : List Event) : ℕ :=
  (evs.filter fun e =>
    match e with
    | .tpSell _ _ false => true
    | _ => false).length

/-- Number of operator alerts (`notifyError` calls) in an event trace. -/
def tpAlertCount (evs : List Event) : ℕ :=
  (evs.filter fun e =>
    match e with
    | .tpFailAlert _ => true
    | _ => false).length

/-- Modelled from the spec: `clamp(x, lo, hi)` as used in the sizing-policy
sentence of §4.2. -/
def clampSpec (lo hi x : ℚ) : ℚ := max lo (min x hi)

/-- Events that can be emitted by the phases of a tick that run before the
take-profit grid scan. -/
def isTickPreEvent : Event → Bool
  | .slSell _ _ => true
  | .breakevenMoved _ => true
  | .trailingActivated => true
  | _ => false

/-! ## Concrete fixtures used by the witnesses and counterexamples -/

/-- Oracle on which every external sell attempt fails. -/
def oracleAllFail : SellOracle := { stopLossOk := false, tpOk := fun _ => false }

/-- Oracle on which every external sell attempt succeeds. -/
def oracleAllOk : SellOracle := { stopLossOk := true, tpOk := fun _ => true }

/-- Oracle on which the stop-loss sell fails but take-profit sells
succeed. -/
def oracleSlFailTpOk : SellOracle := { stopLossOk := false, tpOk := fun _ => true }

/-- A configuration with breakeven (trigger 25%, offset 20%) and one
take-profit level at 5% profit selling 10%; trailing disabled. -/
def cfgA : RiskConfig :=
  { initial_stop_loss_percent := 60
    breakeven :=
      { enabled := true, trigger_profit_percent := 25, breakeven_offset_percent := 20 }
    trailing_stop :=
      { enabled := false, activation_profit_percent := 40, trailing_distance_percent := 25 }
    take_profit_grid :=
      { enabled := true
        levels := [{ profit_percent := 5, sell_percent := 10, description := "L1" }] } }

/-- The state reached from `addPosition cfgA "t" 1 1` after one tick at
price 1.3: breakeven fired (stop 1.2), the take-profit sell failed. -/
def pA1 : Position :=
  { tokenAddress := "t", entryPrice := 1, entryAmount := 1, remainingAmount := 1
    currentStopLoss := 6/5, isBreakevenMoved := true, isTrailingActive := false
    highestPrice := 13/10, executedTpLevels := [], totalSold := 0 }

/-- The state after `pA1` executes take-profit level 0 (10%) successfully. -/
def pA2 : Position :=
  { pA1 with remainingAmount := 9/10, executedTpLevels := [0], totalSold := 10 }

/-- A buy configuration in percentage mode mirroring the shipped
`config.token_buy` values. -/
def cfgBuyPct : TokenBuyConfig :=
  { buy_mode := "percentage", balance_percentage := 8, min_sol_amount := 1/200
    max_sol_amount := 1/2, reserve_sol := 1/5, sol_amount := 1/20 }

/-- The same buy configuration in fixed mode. -/
def cfgBuyFixed : TokenBuyConfig :=
  { cfgBuyPct with buy_mode := "fixed" }

/-- A configuration whose (extreme, but representable) parameters make the
breakeven move lower a trailing-raised stop: trailing distance over 100%
makes the trailing candidate fall as `highestPrice` rises. -/
def cfgB : RiskConfig :=
  { initial_stop_loss_percent := 1000
    breakeven :=
      { enabled := true, trigger_profit_percent := 90, breakeven_offset_percent := -300 }
    trailing_stop :=
      { enabled := true, activation_profit_percent := -100, trailing_distance_percent := 200 }
    take_profit_grid := { enabled := false, levels := [] } }

/-- The state reached from `addPosition cfgB "t" 1 1` after one tick at
price 1/2: trailing active, stop raised from -9 to -1. -/
def pB1 : Position :=
  { tokenAddress := "t", entryPrice := 1, entryAmount := 1, remainingAmount := 1
    currentStopLoss := -1, isBreakevenMoved := false, isTrailingActive := true
    highestPrice := 1, executedTpLevels := [], totalSold := 0 }

/-! ## Lemmas about the tick components -/

theorem bumpHighest_fields (price : ℚ) (p : Position) :
    (bumpHighest price p).entryPrice = p.entryPrice ∧
    (bumpHighest price p).entryAmount = p.entryAmount ∧
    (bumpHighest price p).remainingAmount = p.remainingAmount ∧
    (bumpHighest price p).currentStopLoss = p.currentStopLoss ∧
    (bumpHighest price p).isBreakevenMoved = p.isBreakevenMoved ∧
    (bumpHighest price p).isTrailingActive = p.isTrailingActive ∧
    (bumpHighest price p).executedTpLevels = p.executedTpLevels ∧
    (bumpHighest price p).totalSold = p.totalSold ∧
    p.highestPrice ≤ (bumpHighest price p).highestPrice := by
  unfold bumpHighest
  split
  case isTrue h => exact ⟨rfl, rfl, rfl, rfl, rfl, rfl, rfl, rfl, le_of_lt h⟩
  case isFalse h => exact ⟨rfl, rfl, rfl, rfl, rfl, rfl, rfl, rfl, le_rfl⟩

theorem checkBreakevenMove_cases (cfg : RiskConfig) (pr : ℚ) (p : Position) :
    checkBreakevenMove cfg pr p = (p, []) ∨
    (p.isBreakevenMoved = false ∧ cfg.breakeven.enabled = true ∧
     cfg.breakeven.trigger_profit_percent ≤ pr ∧
     checkBreakevenMove cfg pr p =
       ({ p with
           currentStopLoss :=
             p.entryPrice * (1 + cfg.breakeven.breakeven_offset_percent / 100)
           isBreakevenMoved := true },
        [.breakevenMoved
          (p.entryPrice * (1 + cfg.breakeven.breakeven_offset_percent / 100))])) := by
  unfold checkBreakevenMove
  split
  · exact Or.inl rfl
  · split
    · exact Or.inl rfl
    · split
      · rename_i h1 h2 h3
        exact Or.inr ⟨by simpa using h1, by simpa using h2, h3, rfl⟩
      · exact Or.inl rfl

theorem checkTrailingStopActivation_cases (cfg : RiskConfig) (pr : ℚ) (p : Position) :
    checkTrailingStopActivation cfg pr p = (p, []) ∨
    (p.isTrailingActive = false ∧ cfg.trailing_stop.enabled = true ∧
     cfg.trailing_stop.activation_profit_percent ≤ pr ∧
     checkTrailingStopActivation cfg pr p =
       ({ p with isTrailingActive := true }, [.trailingActivated])) := by
  unfold checkTrailingStopActivation
  split
  · exact Or.inl rfl
  · split
    · exact Or.inl rfl
    · split
      · rename_i h1 h2 h3
        exact Or.inr ⟨by simpa using h1, by simpa using h2, h3, rfl⟩
      · exact Or.inl rfl

theorem updateTrailingStop_cases (cfg : RiskConfig) (p : Position) :
    updateTrailingStop cfg p = p ∨
    (p.isTrailingActive = true ∧ p.currentStopLoss < trailStop cfg p ∧
     updateTrailingStop cfg p = { p with currentStopLoss := trailStop cfg p }) := by
  unfold updateTrailingStop trailStop
  split
  · exact Or.inl rfl
  · dsimp only
    split
    · rename_i h1 h2
      exact Or.inr ⟨by simpa using h1, h2, rfl⟩
    · exact Or.inl rfl

theorem updateTrailingStop_sl_ge (cfg : RiskConfig) (p : Position) :
    p.currentStopLoss ≤ (updateTrailingStop cfg p).currentStopLoss := by
  rcases updateTrailingStop_cases cfg p with h | ⟨_, hlt, h⟩
  · rw [h]
  · rw [h]; exact le_of_lt hlt

theorem run_nil (cfg : RiskConfig) (p : Position) : run cfg [] p = some p := rfl

theorem run_cons (cfg : RiskConfig) (o : SellOracle) (price : ℚ)
    (rest : List (SellOracle × ℚ)) (p : Position) :
    run cfg ((o, price) :: rest) p =
      match (updatePosition cfg o price p).1 with
      | none => none
      | some q => run cfg rest q := rfl

theorem processLevels_some_frame (o : SellOracle) (pr : ℚ) (L : List (ℕ × TPLevel)) :
    ∀ (p p' : Position) (evs : List Event),
      processLevels o pr L p = (some p', evs) →
      p'.entryPrice = p.entryPrice ∧ p'.entryAmount = p.entryAmount ∧
      p'.currentStopLoss = p.currentStopLoss ∧
      p'.isBreakevenMoved = p.isBreakevenMoved ∧
      p'.isTrailingActive = p.isTrailingActive ∧ p'.highestPrice = p.highestPrice := by
  induction L with
  | nil =>
    intro p p' evs h
    simp only [processLevels, Prod.mk.injEq, Option.some.injEq] at h
    obtain ⟨rfl, -⟩ := h
    exact ⟨rfl, rfl, rfl, rfl, rfl, rfl⟩
  | cons hd rest ih =>
    obtain ⟨i, lv⟩ := hd
    intro p p' evs h
    simp only [processLevels] at h
    split at h
    · exact ih p p' evs h
    · split at h
      · exact ih p p' evs h
      · split at h
        · split at h
          · exact absurd (congrArg Prod.fst h) (by simp)
          · rcases hr : processLevels o pr rest (applyTpSell p i lv) with ⟨res, evtail⟩
            rw [hr] at h
            simp only [Prod.mk.injEq] at h
            obtain ⟨h1, h2⟩ := h
            have := ih (applyTpSell p i lv) p' evtail (by rw [hr, h1])
            simpa [applyTpSell] using this
        · rcases hr : processLevels o pr rest p with ⟨res, evtail⟩
          rw [hr] at h
          simp only [Prod.mk.injEq] at h
          obtain ⟨h1, h2⟩ := h
          exact ih p p' evtail (by rw [hr, h1])

theorem processLevels_some_totalSold (o : SellOracle) (pr : ℚ) (L : List (ℕ × TPLevel)) :
    ∀ (p p' : Position) (evs : List Event),
      processLevels o pr L p = (some p', evs) →
      p'.totalSold = p.totalSold + (successPcts evs).sum := by
  induction L with
  | nil =>
    intro p p' evs h
    simp only [processLevels, Prod.mk.injEq, Option.some.injEq] at h
    obtain ⟨rfl, rfl⟩ := h
    simp [successPcts]
  | cons hd rest ih =>
    obtain ⟨i, lv⟩ := hd
    intro p p' evs h
    simp only [processLevels] at h
    split at h
    · exact ih p p' evs h
    · split at h
      · exact ih p p' evs h
      · split at h
        · split at h
          · exact absurd (congrArg Prod.fst h) (by simp)
          · rcases hr : processLevels o pr rest (applyTpSell p i lv) with ⟨res, evtail⟩
            rw [hr] at h
            simp only [Prod.mk.injEq] at h
            obtain ⟨h1, h2⟩ := h
            have := ih (applyTpSell p i lv) p' evtail (by rw [hr, h1])
            subst h2
            simp only [successPcts, List.filterMap_cons] at this ⊢
            simp only [applyTpSell] at this
            rw [this]
            simp [successPcts]
            ring
        · rcases hr : processLevels o pr rest p with ⟨res, evtail⟩
          rw [hr] at h
          simp only [Prod.mk.injEq] at h
          obtain ⟨h1, h2⟩ := h
          have := ih p p' evtail (by rw [hr, h1])
          subst h2
          simpa [successPcts] using this

theorem processLevels_some_exec (o : SellOracle) (pr : ℚ) (L : List (ℕ × TPLevel)) :
    ∀ (p p' : Position) (evs : List Event),
      processLevels o pr L p = (some p', evs) →
      ∃ d, p'.executedTpLevels = p.executedTpLevels ++ d ∧
        ∀ j ∈ d, j ∈ L.map Prod.fst := by
  induction L with
  | nil =>
    intro p p' evs h
    simp only [processLevels, Prod.mk.injEq, Option.some.injEq] at h
    obtain ⟨rfl, -⟩ := h
    exact ⟨[], by simp⟩
  | cons hd rest ih =>
    obtain ⟨i, lv⟩ := hd
    intro p p' evs h
    simp only [processLevels] at h
    split at h
    · obtain ⟨d, hd1, hd2⟩ := ih p p' evs h
      exact ⟨d, hd1, fun j hj => by simpa using Or.inr (hd2 j hj)⟩
    · split at h
      · obtain ⟨d, hd1, hd2⟩ := ih p p' evs h
        exact ⟨d, hd1, fun j hj => by simpa using Or.inr (hd2 j hj)⟩
      · split at h
        · split at h
          · exact absurd (congrArg Prod.fst h) (by simp)
          · rcases hr : processLevels o pr rest (applyTpSell p i lv) with ⟨res, evtail⟩
            rw [hr] at h
            simp only [Prod.mk.injEq] at h
            obtain ⟨h1, h2⟩ := h
            obtain ⟨d, hd1, hd2⟩ := ih (applyTpSell p i lv) p' evtail (by rw [hr, h1])
            refine ⟨i :: d, ?_, ?_⟩
            · simpa [applyTpSell] using hd1
            · intro j hj
              rcases List.mem_cons.mp hj with rfl | hj
              · simp
              · simpa using Or.inr (hd2 j hj)
        · rcases hr : processLevels o pr rest p with ⟨res, evtail⟩
          rw [hr] at h
          simp only [Prod.mk.injEq] at h
          obtain ⟨h1, h2⟩ := h
          obtain ⟨d, hd1, hd2⟩ := ih p p' evtail (by rw [hr, h1])
          exact ⟨d, hd1, fun j hj => by simpa using Or.inr (hd2 j hj)⟩

theorem processLevels_some_remaining (o : SellOracle) (pr : ℚ) (L : List (ℕ × TPLevel)) :
    ∀ (p p' : Position) (evs : List Event),
      processLevels o pr L p = (some p', evs) →
      p.remainingAmount = p.entryAmount * (1 - p.totalSold / 100) →
      p'.remainingAmount = p'.entryAmount * (1 - p'.totalSold / 100) := by
  induction L with
  | nil =>
    intro p p' evs h hp
    simp only [processLevels, Prod.mk.injEq, Option.some.injEq] at h
    obtain ⟨rfl, -⟩ := h
    exact hp
  | cons hd rest ih =>
    obtain ⟨i, lv⟩ := hd
    intro p p' evs h hp
    simp only [processLevels] at h
    split at h
    · exact ih p p' evs h hp
    · split at h
      · exact ih p p' evs h hp
      · split at h
        · split at h
          · exact absurd (congrArg Prod.fst h) (by simp)
          · rcases hr : processLevels o pr rest (applyTpSell p i lv) with ⟨res, evtail⟩
            rw [hr] at h
            simp only [Prod.mk.injEq] at h
            obtain ⟨h1, h2⟩ := h
            exact ih (applyTpSell p i lv) p' evtail (by rw [hr, h1]) (by simp [applyTpSell])
        · rcases hr : processLevels o pr rest p with ⟨res, evtail⟩
          rw [hr] at h
          simp only [Prod.mk.injEq] at h
          obtain ⟨h1, h2⟩ := h
          exact ih p p' evtail (by rw [hr, h1]) hp

theorem processLevels_some_lt (o : SellOracle) (pr : ℚ) (L : List (ℕ × TPLevel)) :
    ∀ (p p' : Position) (evs : List Event),
      processLevels o pr L p = (some p', evs) →
      p.totalSold < 99.9 → p'.totalSold < 99.9 := by
  induction L with
  | nil =>
    intro p p' evs h hp
    simp only [processLevels, Prod.mk.injEq, Option.some.injEq] at h
    obtain ⟨rfl, -⟩ := h
    exact hp
  | cons hd rest ih =>
    obtain ⟨i, lv⟩ := hd
    intro p p' evs h hp
    simp only [processLevels] at h
    split at h
    · exact ih p p' evs h hp
    · split at h
      · exact ih p p' evs h hp
      · split at h
        · split at h
          · exact absurd (congrArg Prod.fst h) (by simp)
          · rename_i hstop
            rcases hr : processLevels o pr rest (applyTpSell p i lv) with ⟨res, evtail⟩
            rw [hr] at h
            simp only [Prod.mk.injEq] at h
            obtain ⟨h1, h2⟩ := h
            exact ih (applyTpSell p i lv) p' evtail (by rw [hr, h1]) (not_le.mp hstop)
        · rcases hr : processLevels o pr rest p with ⟨res, evtail⟩
          rw [hr] at h
          simp only [Prod.mk.injEq] at h
          obtain ⟨h1, h2⟩ := h
          exact ih p p' evtail (by rw [hr, h1]) hp

theorem processLevels_some_nodup (o : SellOracle) (pr : ℚ) (L : List (ℕ × TPLevel)) :
    ∀ (p p' : Position) (evs : List Event),
      processLevels o pr L p = (some p', evs) →
      p.executedTpLevels.Nodup → p'.executedTpLevels.Nodup := by
  induction L with
  | nil =>
    intro p p' evs h hp
    simp only [processLevels, Prod.mk.injEq, Option.some.injEq] at h
    obtain ⟨rfl, -⟩ := h
    exact hp
  | cons hd rest ih =>
    obtain ⟨i, lv⟩ := hd
    intro p p' evs h hp
    simp only [processLevels] at h
    split at h
    · exact ih p p' evs h hp
    · split at h
      · exact ih p p' evs h hp
      · split at h
        · split at h
          · exact absurd (congrArg Prod.fst h) (by simp)
          · rename_i hmem hlt hok hstop
            rcases hr : processLevels o pr rest (applyTpSell p i lv) with ⟨res, evtail⟩
            rw [hr] at h
            simp only [Prod.mk.injEq] at h
            obtain ⟨h1, h2⟩ := h
            refine ih (applyTpSell p i lv) p' evtail (by rw [hr, h1]) ?_
            simp only [applyTpSell, List.nodup_append, List.nodup_cons, List.nodup_nil]
            exact ⟨hp, by simp, by simpa using hmem⟩
        · rcases hr : processLevels o pr rest p with ⟨res, evtail⟩
          rw [hr] at h
          simp only [Prod.mk.injEq] at h
          obtain ⟨h1, h2⟩ := h
          exact ih p p' evtail (by rw [hr, h1]) hp

theorem processLevels_none_threshold (o : SellOracle) (pr : ℚ) (L : List (ℕ × TPLevel)) :
    ∀ (p : Position) (evs : List Event),
      processLevels o pr L p = (none, evs) →
      (99.9 : ℚ) ≤ p.totalSold + (successPcts evs).sum := by
  induction L with
  | nil =>
    intro p evs h
    exact absurd (congrArg Prod.fst h) (by simp [processLevels])
  | cons hd rest ih =>
    obtain ⟨i, lv⟩ := hd
    intro p evs h
    simp only [processLevels] at h
    split at h
    · exact ih p evs h
    · split at h
      · exact ih p evs h
      · split at h
        · split at h
          · rename_i hstop
            simp only [Prod.mk.injEq] at h
            obtain ⟨-, h2⟩ := h
            subst h2
            simp only [applyTpSell] at hstop
            simpa [successPcts] using hstop
          · rcases hr : processLevels o pr rest (applyTpSell p i lv) with ⟨res, evtail⟩
            rw [hr] at h
            simp only [Prod.mk.injEq] at h
            obtain ⟨h1, h2⟩ := h
            have := ih (applyTpSell p i lv) evtail (by rw [hr, h1])
            subst h2
            simp only [applyTpSell] at this
            simp only [successPcts, List.filterMap_cons] at this ⊢
            simp only [List.sum_cons]
            linarith [this]
        · rcases hr : processLevels o pr rest p with ⟨res, evtail⟩
          rw [hr] at h
          simp only [Prod.mk.injEq] at h
          obtain ⟨h1, h2⟩ := h
          have := ih p evtail (by rw [hr, h1])
          subst h2
          simpa [successPcts] using this

theorem processLevels_mem_exec (o : SellOracle) (pr : ℚ) (L : List (ℕ × TPLevel)) :
    ∀ (p p' : Position) (evs : List Event) (j : ℕ),
      processLevels o pr L p = (some p', evs) →
      j ∈ p'.executedTpLevels →
      j ∈ p.executedTpLevels ∨ ∃ pct, Event.tpSell j pct true ∈ evs := by
  induction L with
  | nil =>
    intro p p' evs j h hj
    simp only [processLevels, Prod.mk.injEq, Option.some.injEq] at h
    obtain ⟨rfl, -⟩ := h
    exact Or.inl hj
  | cons hd rest ih =>
    obtain ⟨i, lv⟩ := hd
    intro p p' evs j h hj
    simp only [processLevels] at h
    split at h
    · exact ih p p' evs j h hj
    · split at h
      · exact ih p p' evs j h hj
      · split at h
        · split at h
          · exact absurd (congrArg Prod.fst h) (by simp)
          · rcases hr : processLevels o pr rest (applyTpSell p i lv) with ⟨res, evtail⟩
            rw [hr] at h
            simp only [Prod.mk.injEq] at h
            obtain ⟨h1, h2⟩ := h
            subst h2
            rcases ih (applyTpSell p i lv) p' evtail j (by rw [hr, h1]) hj with hin | ⟨pct, hpct⟩
            · simp only [applyTpSell, List.mem_append, List.mem_singleton] at hin
              rcases hin with hin | rfl
              · exact Or.inl hin
              · exact Or.inr ⟨lv.sell_percent, by simp⟩
            · exact Or.inr ⟨pct, by simp [hpct]⟩
        · rcases hr : processLevels o pr rest p with ⟨res, evtail⟩
          rw [hr] at h
          simp only [Prod.mk.injEq] at h
          obtain ⟨h1, h2⟩ := h
          subst h2
          rcases ih p p' evtail j (by rw [hr, h1]) hj with hin | ⟨pct, hpct⟩
          · exact Or.inl hin
          · exact Or.inr ⟨pct, by simp [hpct]⟩

theorem processLevels_fail_not_exec (o : SellOracle) (pr : ℚ) (L : List (ℕ × TPLevel)) :
    ∀ (p p' : Position) (evs : List Event) (j : ℕ) (pct : ℚ),
      (L.map Prod.fst).Nodup →
      processLevels o pr L p = (some p', evs) →
      Event.tpSell j pct false ∈ evs →
      j ∉ p'.executedTpLevels := by
  induction L with
  | nil =>
    intro p p' evs j pct _ h hev
    simp only [processLevels, Prod.mk.injEq, Option.some.injEq] at h
    obtain ⟨-, rfl⟩ := h
    simp at hev
  | cons hd rest ih =>
    obtain ⟨i, lv⟩ := hd
    intro p p' evs j pct hnd h hev
    simp only [List.map_cons, List.nodup_cons] at hnd
    obtain ⟨hnd1, hnd2⟩ := hnd
    simp only [processLevels] at h
    split at h
    · exact ih p p' evs j pct hnd2 h hev
    · split at h
      · exact ih p p' evs j pct hnd2 h hev
      · split at h
        · split at h
          · exact absurd (congrArg Prod.fst h) (by simp)
          · rcases hr : processLevels o pr rest (applyTpSell p i lv) with ⟨res, evtail⟩
            rw [hr] at h
            simp only [Prod.mk.injEq] at h
            obtain ⟨h1, h2⟩ := h
            subst h2
            rcases List.mem_cons.mp hev with hev | hev
            · exact absurd hev (by simp)
            · exact ih (applyTpSell p i lv) p' evtail j pct hnd2 (by rw [hr, h1]) hev
        · rename_i hmem hlt hok
          rcases hr : processLevels o pr rest p with ⟨res, evtail⟩
          rw [hr] at h
          simp only [Prod.mk.injEq] at h
          obtain ⟨h1, h2⟩ := h
          subst h2
          rcases List.mem_cons.mp hev with hev | hev
          · -- the failed sell is this very level: j = i
            obtain ⟨rfl, -, -⟩ : j = i ∧ pct = lv.sell_percent ∧ False = false := by
              simpa using hev
            obtain ⟨d, hd1, hd2⟩ :=
              processLevels_some_exec o pr rest p p' evtail (by rw [hr, h1])
            rw [hd1]
            simp only [List.mem_append]
            push_neg
            exact ⟨by simpa using hmem, fun hjd => hnd1 (hd2 _ hjd)⟩
          · rcases List.mem_cons.mp hev with hev | hev
            · exact absurd hev (by simp)
            · exact ih p p' evtail j pct hnd2 (by rw [hr, h1]) hev

theorem processLevels_tpSell_pct (o : SellOracle) (pr : ℚ) (L : List (ℕ × TPLevel)) :
    ∀ (p : Position) (j : ℕ) (pct : ℚ) (b : Bool),
      Event.tpSell j pct b ∈ (processLevels o pr L p).2 →
      ∃ lv, (j, lv) ∈ L ∧ pct = lv.sell_percent := by
  induction L with
  | nil => intro p j pct b hev; simp [processLevels] at hev
  | cons hd rest ih =>
    obtain ⟨i, lv⟩ := hd
    intro p j pct b hev
    simp only [processLevels] at hev
    split at hev
    · obtain ⟨lv', h1, h2⟩ := ih p j pct b hev
      exact ⟨lv', List.mem_cons_of_mem _ h1, h2⟩
    · split at hev
      · obtain ⟨lv', h1, h2⟩ := ih p j pct b hev
        exact ⟨lv', List.mem_cons_of_mem _ h1, h2⟩
      · split at hev
        · split at hev
          · simp only [List.mem_singleton, Event.tpSell.injEq] at hev
            exact ⟨lv, by simp [hev.1], hev.2.1⟩
          · rcases List.mem_cons.mp hev with hev | hev
            · simp only [Event.tpSell.injEq] at hev
              exact ⟨lv, by simp [hev.1], hev.2.1⟩
            · obtain ⟨lv', h1, h2⟩ := ih (applyTpSell p i lv) j pct b hev
              exact ⟨lv', List.mem_cons_of_mem _ h1, h2⟩
        · rcases List.mem_cons.mp hev with hev | hev
          · simp only [Event.tpSell.injEq] at hev
            exact ⟨lv, by simp [hev.1], hev.2.1⟩
          · rcases List.mem_cons.mp hev with hev | hev
            · exact absurd hev (by simp)
            · obtain ⟨lv', h1, h2⟩ := ih p j pct b hev
              exact ⟨lv', List.mem_cons_of_mem _ h1, h2⟩

theorem processLevels_alert_eq_fail (o : SellOracle) (pr : ℚ) (L : List (ℕ × TPLevel)) :
    ∀ (p : Position),
      tpAlertCount (processLevels o pr L p).2 = tpFailCount (processLevels o pr L p).2 := by
  induction L with
  | nil => intro p; simp [processLevels, tpAlertCount, tpFailCount]
  | cons hd rest ih =>
    obtain ⟨i, lv⟩ := hd
    intro p
    simp only [processLevels]
    split
    · exact ih p
    · split
      · exact ih p
      · split
        · split
          · simp [tpAlertCount, tpFailCount]
          · simpa [tpAlertCount, tpFailCount] using ih (applyTpSell p i lv)
        · simpa [tpAlertCount, tpFailCount] using ih p

theorem checkStopLoss_events (o : SellOracle) (price : ℚ) (p : Position) :
    ∀ e ∈ (checkStopLoss o price p).2, isTickPreEvent e = true := by
  unfold checkStopLoss
  split
  · split <;> intro e he <;> simp only [List.mem_singleton] at he <;> subst he <;> rfl
  · intro e he; simp at he

theorem checkBreakevenMove_events (cfg : RiskConfig) (pr : ℚ) (p : Position) :
    ∀ e ∈ (checkBreakevenMove cfg pr p).2, isTickPreEvent e = true := by
  rcases checkBreakevenMove_cases cfg pr p with h | ⟨-, -, -, h⟩ <;> rw [h]
  · intro e he; simp at he
  · intro e he; simp only [List.mem_singleton] at he; subst he; rfl

theorem checkTrailingStopActivation_events (cfg : RiskConfig) (pr : ℚ) (p : Position) :
    ∀ e ∈ (checkTrailingStopActivation cfg pr p).2, isTickPreEvent e = true := by
  rcases checkTrailingStopActivation_cases cfg pr p with h | ⟨-, -, -, h⟩ <;> rw [h]
  · intro e he; simp at he
  · intro e he; simp only [List.mem_singleton] at he; subst he; rfl

theorem checkBreakevenMove_fields (cfg : RiskConfig) (pr : ℚ) (p : Position) :
    ((checkBreakevenMove cfg pr p).1).entryPrice = p.entryPrice ∧
    ((checkBreakevenMove cfg pr p).1).entryAmount = p.entryAmount ∧
    ((checkBreakevenMove cfg pr p).1).remainingAmount = p.remainingAmount ∧
    ((checkBreakevenMove cfg pr p).1).isTrailingActive = p.isTrailingActive ∧
    ((checkBreakevenMove cfg pr p).1).highestPrice = p.highestPrice ∧
    ((checkBreakevenMove cfg pr p).1).executedTpLevels = p.executedTpLevels ∧
    ((checkBreakevenMove cfg pr p).1).totalSold = p.totalSold := by
  rcases checkBreakevenMove_cases cfg pr p with h | ⟨-, -, -, h⟩ <;> rw [h] <;>
    exact ⟨rfl, rfl, rfl, rfl, rfl, rfl, rfl⟩

theorem checkTrailingStopActivation_fields (cfg : RiskConfig) (pr : ℚ) (p : Position) :
    ((checkTrailingStopActivation cfg pr p).1).entryPrice = p.entryPrice ∧
    ((checkTrailingStopActivation cfg pr p).1).entryAmount = p.entryAmount ∧
    ((checkTrailingStopActivation cfg pr p).1).remainingAmount = p.remainingAmount ∧
    ((checkTrailingStopActivation cfg pr p).1).currentStopLoss = p.currentStopLoss ∧
    ((checkTrailingStopActivation cfg pr p).1).isBreakevenMoved = p.isBreakevenMoved ∧
    ((checkTrailingStopActivation cfg pr p).1).highestPrice = p.highestPrice ∧
    ((checkTrailingStopActivation cfg pr p).1).executedTpLevels = p.executedTpLevels ∧
    ((checkTrailingStopActivation cfg pr p).1).totalSold = p.totalSold := by
  rcases checkTrailingStopActivation_cases cfg pr p with h | ⟨-, -, -, h⟩ <;> rw [h] <;>
    exact ⟨rfl, rfl, rfl, rfl, rfl, rfl, rfl, rfl⟩

theorem updateTrailingStop_fields (cfg : RiskConfig) (p : Position) :
    (updateTrailingStop cfg p).entryPrice = p.entryPrice ∧
    (updateTrailingStop cfg p).entryAmount = p.entryAmount ∧
    (updateTrailingStop cfg p).remainingAmount = p.remainingAmount ∧
    (updateTrailingStop cfg p).isBreakevenMoved = p.isBreakevenMoved ∧
    (updateTrailingStop cfg p).isTrailingActive = p.isTrailingActive ∧
    (updateTrailingStop cfg p).highestPrice = p.highestPrice ∧
    (updateTrailingStop cfg p).executedTpLevels = p.executedTpLevels ∧
    (updateTrailingStop cfg p).totalSold = p.totalSold := by
  rcases updateTrailingStop_cases cfg p with h | ⟨-, -, h⟩ <;> rw [h] <;>
    exact ⟨rfl, rfl, rfl, rfl, rfl, rfl, rfl, rfl⟩

theorem checkTakeProfitGrid_some_frame (cfg : RiskConfig) (o : SellOracle) (pr : ℚ)
    (p p' : Position) (evs : List Event)
    (h : checkTakeProfitGrid cfg o pr p = (some p', evs)) :
    p'.entryPrice = p.entryPrice ∧ p'.entryAmount = p.entryAmount ∧
    p'.currentStopLoss = p.currentStopLoss ∧
    p'.isBreakevenMoved = p.isBreakevenMoved ∧
    p'.isTrailingActive = p.isTrailingActive ∧ p'.highestPrice = p.highestPrice := by
  unfold checkTakeProfitGrid at h
  split at h
  · simp only [Prod.mk.injEq, Option.some.injEq] at h
    obtain ⟨rfl, -⟩ := h
    exact ⟨rfl, rfl, rfl, rfl, rfl, rfl⟩
  · exact processLevels_some_frame o pr _ p p' evs h

theorem checkTakeProfitGrid_some_nodup (cfg : RiskConfig) (o : SellOracle) (pr : ℚ)
    (p p' : Position) (evs : List Event)
    (h : checkTakeProfitGrid cfg o pr p = (some p', evs)) :
    p.executedTpLevels.Nodup → p'.executedTpLevels.Nodup := by
  unfold checkTakeProfitGrid at h
  split at h
  · simp only [Prod.mk.injEq, Option.some.injEq] at h
    obtain ⟨rfl, -⟩ := h
    exact id
  · exact processLevels_some_nodup o pr _ p p' evs h

/-- Decomposition of a surviving tick: everything before the take-profit
scan preserves the grid-tracking fields and emits no take-profit events. -/
theorem updatePosition_some_decomp (cfg : RiskConfig) (o : SellOracle) (price : ℚ)
    (p p' : Position) (evs : List Event)
    (h : updatePosition cfg o price p = (some p', evs)) :
    ∃ (q : Position) (evspre evstp : List Event),
      q.executedTpLevels = p.executedTpLevels ∧
      q.totalSold = p.totalSold ∧
      q.entryAmount = p.entryAmount ∧
      q.remainingAmount = p.remainingAmount ∧
      checkTakeProfitGrid cfg o ((price - p.entryPrice) / p.entryPrice * 100) q =
        (some p', evstp) ∧
      evs = evspre ++ evstp ∧
      ∀ e ∈ evspre, isTickPreEvent e = true := by
  simp only [updatePosition] at h
  split at h
  · exact absurd (congrArg Prod.fst h) (by simp)
  · set pr := (price - p.entryPrice) / p.entryPrice * 100 with hpr
    set p1 := bumpHighest price p with hp1
    set p2 := (checkBreakevenMove cfg pr p1).1 with hp2
    set p3 := (checkTrailingStopActivation cfg pr p2).1 with hp3
    set p4 := updateTrailingStop cfg p3 with hp4
    rcases hg : checkTakeProfitGrid cfg o pr p4 with ⟨res, evstp⟩
    rw [hg] at h
    simp only [Prod.mk.injEq] at h
    obtain ⟨h1, h2⟩ := h
    have hb := bumpHighest_fields price p
    have hbe := checkBreakevenMove_fields cfg pr p1
    have hta := checkTrailingStopActivation_fields cfg pr p2
    have htu := updateTrailingStop_fields cfg p3
    refine ⟨p4,
      (checkStopLoss o price p1).2 ++ (checkBreakevenMove cfg pr p1).2 ++
        (checkTrailingStopActivation cfg pr p2).2, evstp, ?_, ?_, ?_, ?_, ?_, ?_, ?_⟩
    · rw [htu.2.2.2.2.2.2.1, hta.2.2.2.2.2.2.1, hbe.2.2.2.2.2.1, hb.2.2.2.2.2.2.1]
    · rw [htu.2.2.2.2.2.2.2, hta.2.2.2.2.2.2.2, hbe.2.2.2.2.2.2, hb.2.2.2.2.2.2.2.1]
    · rw [htu.2.1, hta.2.1, hbe.2.1, hb.2.1]
    · rw [htu.2.2.1, hta.2.2.1, hbe.2.2.1, hb.2.2.1]
    · rw [hg, h1]
    · rw [← h2]
    · intro e he
      simp only [List.mem_append] at he
      rcases he with (he | he) | he
      · exact checkStopLoss_events o price p1 e he
      · exact checkBreakevenMove_events cfg pr p1 e he
      · exact checkTrailingStopActivation_events cfg pr p2 e he

theorem updateTrailingStop_active_cases (cfg : RiskConfig) (p : Position)
    (ha : p.isTrailingActive = true) :
    ((updateTrailingStop cfg p).currentStopLoss = trailStop cfg p ∧
      p.currentStopLoss < trailStop cfg p) ∨
    ((updateTrailingStop cfg p).currentStopLoss = p.currentStopLoss ∧
      trailStop cfg p ≤ p.currentStopLoss) := by
  unfold updateTrailingStop trailStop
  rw [ha]
  simp only [Bool.not_true, Bool.false_eq_true, if_false]
  split
  · rename_i h; exact Or.inl ⟨rfl, h⟩
  · rename_i h; exact Or.inr ⟨rfl, not_lt.mp h⟩

theorem trailStop_mono (cfg : RiskConfig) (p q : Position)
    (hd : cfg.trailing_stop.trailing_distance_percent ≤ 100)
    (hh : p.highestPrice ≤ q.highestPrice) : trailStop cfg p ≤ trailStop cfg q := by
  unfold trailStop
  have hf : (0:ℚ) ≤ 1 - cfg.trailing_stop.trailing_distance_percent / 100 := by linarith
  exact mul_le_mul_of_nonneg_right hh hf

/-! ## Claim theorems -/

/-- Claim C1 (amended): on a tick whose price is at or below
`currentStopLoss`, the stop-loss check runs first and, when the full-exit
sell succeeds, the position is removed and none of the later steps run:
the tick's only event is the successful liquidation sell (no breakeven
move, no trailing activation or update, no take-profit execution).  When
the liquidation sell fails, the code instead continues with the remaining
checks of the same tick. -/
theorem claim_C1 (cfg : RiskConfig) (oracle : SellOracle) (price : ℚ) (p : Position)
    (hsl : price ≤ p.currentStopLoss) (hok : oracle.stopLossOk = true) :
    updatePosition cfg oracle price p = (none, [Event.slSell (100 - p.totalSold) true]) := by
  have hb := bumpHighest_fields price p
  have hcs : checkStopLoss oracle price (bumpHighest price p) =
      (true, [Event.slSell (100 - p.totalSold) true]) := by
    unfold checkStopLoss
    rw [hb.2.2.2.1, hb.2.2.2.2.2.2.2.1, if_pos hsl, hok]
    simp
  simp only [updatePosition]
  rw [hcs]
  simp

/-- Witness for C1: a concrete successful stop-loss tick removes the
position with a single liquidation event. -/
theorem claim_C1_witness :
    updatePosition cfgA oracleAllOk (3/10) (addPosition cfgA "t" 1 1) =
      (none, [Event.slSell (100 - (addPosition cfgA "t" 1 1).totalSold) true]) :=
  claim_C1 cfgA oracleAllOk (3/10) (addPosition cfgA "t" 1 1)
    (by with_unfolding_all decide) rfl

/-- Counterexample to C1 as frozen: from a freshly added position, one
tick at price 1.3 moves the stop to 1.2 (reaching state `pA1`).  The next
tick observes price 1.1 ≤ 1.2, so the stop-loss triggers, but its sell
fails; the tick then continues and executes take-profit level 0 in the
same tick, contradicting "none of the later steps run". -/
theorem claim_C1_counterexample :
    (updatePosition cfgA oracleAllFail (13/10) (addPosition cfgA "t" 1 1)).1 = some pA1 ∧
    (11/10 : ℚ) ≤ pA1.currentStopLoss ∧
    updatePosition cfgA oracleSlFailTpOk (11/10) pA1 =
      (some pA2, [Event.slSell 100 false, Event.tpSell 0 10 true]) := by
  with_unfolding_all decide

/-- Claim C2 (amended): provided the trailing distance percent is at most
100 (as in every sane configuration; the shipped one uses 25), once
`currentStopLoss` has been raised above its initial value
`entryPrice * (1 - initialStopLossPct/100)` — whether by the breakeven
move or by a trailing update — no later tick ever decreases it.  The
invariant `SLInv` holds for freshly added positions and is preserved by
every tick, and under it the stop is monotone once above the initial
value.  (Without the bound on the distance percent the claim fails, see
the counterexample.) -/
theorem claim_C2 :
    (∀ (cfg : RiskConfig) (t : String) (price amt : ℚ),
      SLInv cfg (addPosition cfg t price amt)) ∧
    (∀ (cfg : RiskConfig) (oracle : SellOracle) (price : ℚ) (p p' : Position)
        (evs : List Event),
      cfg.trailing_stop.trailing_distance_percent ≤ 100 →
      SLInv cfg p →
      updatePosition cfg oracle price p = (some p', evs) →
      SLInv cfg p' ∧
      (initStopLoss cfg p < p.currentStopLoss → p.currentStopLoss ≤ p'.currentStopLoss)) := by
  constructor
  · intro cfg t price amt _
    exact Or.inl rfl
  · intro cfg oracle price p p' evs hd hinv heq
    simp only [updatePosition] at heq
    split at heq
    · exact absurd (congrArg Prod.fst heq) (by simp)
    · set pr := (price - p.entryPrice) / p.entryPrice * 100 with hpr
      set p1 := bumpHighest price p with hp1
      set p2 := (checkBreakevenMove cfg pr p1).1 with hp2
      set p3 := (checkTrailingStopActivation cfg pr p2).1 with hp3
      set p4 := updateTrailingStop cfg p3 with hp4
      rcases hg : checkTakeProfitGrid cfg oracle pr p4 with ⟨res, evstp⟩
      rw [hg] at heq
      have h1 : res = some p' := congrArg Prod.fst heq
      subst h1
      obtain ⟨f1, f2, f3, f4, f5, f6⟩ :=
        checkTakeProfitGrid_some_frame cfg oracle pr p4 p' evstp hg
      have hb := bumpHighest_fields price p
      have hbe := checkBreakevenMove_fields cfg pr p1
      have hta := checkTrailingStopActivation_fields cfg pr p2
      have htu := updateTrailingStop_fields cfg p3
      have hE1 : p1.entryPrice = p.entryPrice := hb.1
      have hSL1 : p1.currentStopLoss = p.currentStopLoss := hb.2.2.2.1
      have hM1 : p1.isBreakevenMoved = p.isBreakevenMoved := hb.2.2.2.2.1
      have hA1 : p1.isTrailingActive = p.isTrailingActive := hb.2.2.2.2.2.1
      have hH1 : p.highestPrice ≤ p1.highestPrice := hb.2.2.2.2.2.2.2.2
      have hE4 : p4.entryPrice = p.entryPrice := by rw [htu.1, hta.1, hbe.1, hE1]
      have hSL3 : p3.currentStopLoss = p2.currentStopLoss := hta.2.2.2.1
      have hM3 : p3.isBreakevenMoved = p2.isBreakevenMoved := hta.2.2.2.2.1
      have hM4 : p4.isBreakevenMoved = p2.isBreakevenMoved := by rw [htu.2.2.2.1, hM3]
      have hA2 : p2.isTrailingActive = p.isTrailingActive := by rw [hbe.2.2.2.1, hA1]
      have hA4 : p4.isTrailingActive = p3.isTrailingActive := htu.2.2.2.2.1
      have hH2 : p2.highestPrice = p1.highestPrice := hbe.2.2.2.2.1
      have hH3 : p3.highestPrice = p2.highestPrice := hta.2.2.2.2.2.1
      have hH4 : p4.highestPrice = p3.highestPrice := htu.2.2.2.2.2.1
      have htr1 : trailStop cfg p ≤ trailStop cfg p1 := trailStop_mono cfg p p1 hd hH1
      have htr34 : trailStop cfg p4 = trailStop cfg p3 := by unfold trailStop; rw [hH4]
      have htr31 : trailStop cfg p3 = trailStop cfg p1 := by unfold trailStop; rw [hH3, hH2]
      have hinit4 : initStopLoss cfg p4 = initStopLoss cfg p := by
        unfold initStopLoss; rw [hE4]
      have hmain : SLInv cfg p4 ∧
          (initStopLoss cfg p < p.currentStopLoss →
            p.currentStopLoss ≤ p4.currentStopLoss) := by
        by_cases hM : p.isBreakevenMoved = true
        · -- breakeven already moved: the stop only moves up via trailing
          have hp2e : p2 = p1 := by
            rcases checkBreakevenMove_cases cfg pr p1 with h | ⟨hm, -, -, h⟩
            · exact congrArg Prod.fst h
            · rw [hM1, hM] at hm; exact absurd hm (by simp)
          have hM4t : p4.isBreakevenMoved = true := by rw [hM4, hp2e, hM1, hM]
          constructor
          · intro hm4; rw [hM4t] at hm4; exact absurd hm4 (by simp)
          · intro _
            calc p.currentStopLoss = p3.currentStopLoss := by rw [hSL3, hp2e, hSL1]
              _ ≤ p4.currentStopLoss := updateTrailingStop_sl_ge cfg p3
        · have hMf : p.isBreakevenMoved = false := by simpa using hM
          rcases hinv hMf with hcI | ⟨hact, hle⟩
          · -- the stop is still at its initial value
            constructor
            · rcases checkBreakevenMove_cases cfg pr p1 with h | ⟨-, -, -, h⟩
              · have hp2e : p2 = p1 := congrArg Prod.fst h
                rcases updateTrailingStop_cases cfg p3 with h4 | ⟨hact3, -, h4⟩
                · intro _
                  left
                  have hsl4 : p4.currentStopLoss = p.currentStopLoss := by
                    rw [hp4, h4, hSL3, hp2e, hSL1]
                  rw [hsl4, hcI, hinit4]
                · intro _
                  right
                  refine ⟨by rw [hA4, hact3], ?_⟩
                  have hsl4 : p4.currentStopLoss = trailStop cfg p3 := by rw [hp4, h4]
                  rw [hsl4, htr34]
              · -- breakeven fires this tick
                have hM4t : p4.isBreakevenMoved = true := by
                  rw [hM4, hp2, congrArg Prod.fst h]
                intro hm4; rw [hM4t] at hm4; exact absurd hm4 (by simp)
            · intro hgt
              rw [hcI] at hgt
              exact absurd hgt (lt_irrefl _)
          · -- the stop was raised by trailing
            have hact3 : p3.isTrailingActive = true := by
              rcases checkTrailingStopActivation_cases cfg pr p2 with h | ⟨-, -, -, h⟩
              · rw [hp3, congrArg Prod.fst h, hA2, hact]
              · rw [hp3, congrArg Prod.fst h]
            have hle3 : p.currentStopLoss ≤ trailStop cfg p3 := by
              rw [htr31]; exact le_trans hle htr1
            have h4c := updateTrailingStop_active_cases cfg p3 hact3
            rcases checkBreakevenMove_cases cfg pr p1 with hbe' | ⟨-, -, -, hbe'⟩
            · -- breakeven does not fire
              have hp2e : p2 = p1 := congrArg Prod.fst hbe'
              have hSL2 : p2.currentStopLoss = p.currentStopLoss := by rw [hp2e, hSL1]
              have hM4f : p4.isBreakevenMoved = false := by rw [hM4, hp2e, hM1, hMf]
              constructor
              · intro _
                right
                refine ⟨by rw [hA4, hact3], ?_⟩
                rcases h4c with ⟨h4, -⟩ | ⟨h4, -⟩
                · rw [← hp4] at h4
                  rw [h4, htr34]
                · rw [← hp4] at h4
                  rw [h4, hSL3, hSL2, htr34]
                  exact hle3
              · intro _
                rcases h4c with ⟨h4, -⟩ | ⟨h4, -⟩
                · rw [← hp4] at h4
                  rw [h4]
                  exact hle3
                · rw [← hp4] at h4
                  rw [h4, hSL3, hSL2]
            · -- breakeven fires: the stop becomes the breakeven floor,
              -- but trailing restores at least the previous floor
              have hp2e : p2 =
                  { p1 with
                    currentStopLoss :=
                      p1.entryPrice * (1 + cfg.breakeven.breakeven_offset_percent / 100)
                    isBreakevenMoved := true } := congrArg Prod.fst hbe'
              have hM4t : p4.isBreakevenMoved = true := by rw [hM4, hp2e]
              constructor
              · intro hm4; rw [hM4t] at hm4; exact absurd hm4 (by simp)
              · intro _
                rcases h4c with ⟨h4, -⟩ | ⟨h4, hge⟩
                · rw [← hp4] at h4
                  rw [h4]
                  exact hle3
                · rw [← hp4] at h4
                  rw [h4]
                  exact le_trans hle3 hge
      refine ⟨?_, ?_⟩
      · intro hm'
        rw [f4] at hm'
        rcases hmain.1 hm' with hc | ⟨ha, hle'⟩
        · left
          unfold initStopLoss at hc ⊢
          rw [f3, f1, hc]
        · right
          refine ⟨by rw [f5, ha], ?_⟩
          unfold trailStop at hle' ⊢
          rw [f3, f6]
          exact hle'
      · intro hgt
        rw [f3]
        exact hmain.2 hgt

/-- Witness for C2: with the shipped-style configuration `cfgA`
(distance 25 ≤ 100), the invariant holds for a fresh position and is
preserved (with stop monotonicity) by a concrete surviving tick. -/
theorem claim_C2_witness :
    SLInv cfgA (addPosition cfgA "t" 1 1) ∧
    (SLInv cfgA pA1 ∧
      (initStopLoss cfgA pA1 < pA1.currentStopLoss →
        pA1.currentStopLoss ≤ pA1.currentStopLoss)) := by
  constructor
  · exact claim_C2.1 cfgA "t" 1 1
  · have h := claim_C2.2 cfgA oracleAllFail (13/10) pA1 pA1
      [Event.tpSell 0 10 false, Event.tpFailAlert 0]
      (by with_unfolding_all decide)
      (by intro h; exact absurd h (by with_unfolding_all decide))
      (by with_unfolding_all decide)
    exact h

/-- Counterexample to C2 as frozen: with `cfgB` (breakeven and trailing
both enabled, trailing distance 200 > 100), the stop of a fresh position
rises from its initial -9 to -1 by a trailing update, and the next tick's
breakeven move lowers it to -2 — a decrease after the stop was above its
initial value. -/
theorem claim_C2_counterexample :
    cfgB.breakeven.enabled = true ∧ cfgB.trailing_stop.enabled = true ∧
    (updatePosition cfgB oracleAllFail (1/2) (addPosition cfgB "t" 1 1)).1 = some pB1 ∧
    initStopLoss cfgB pB1 < pB1.currentStopLoss ∧
    ((updatePosition cfgB oracleAllFail 2 pB1).1.map Position.currentStopLoss)
      = some (-2) ∧
    (-2 : ℚ) < pB1.currentStopLoss := by
  with_unfolding_all decide

/-- Claim C3: while a trade is in flight, `executeTrade` submits no buy:
it appends the token to the queue when it holds fewer than
`MAX_QUEUE_SIZE` (5) entries and drops the request otherwise, returning a
failed "Trading in progress" result in both cases and leaving the
in-flight flag set.  On completion of an in-flight body (success, failure
or thrown exception alike) the finally-step clears the in-flight flag and
then dequeues and resubmits exactly the head queued token, if any. -/
theorem claim_C3 :
    (∀ (s : EngineState) (t : String) (oc : BodyOutcome), s.isTrading = true →
      (executeTrade s t oc).buySubmitted = none ∧
      (executeTrade s t oc).result.success = false ∧
      (executeTrade s t oc).result.error = some "Trading in progress" ∧
      (executeTrade s t oc).state.tradingQueue =
        (if s.tradingQueue.length < MAX_QUEUE_SIZE then s.tradingQueue ++ [t]
         else s.tradingQueue) ∧
      (executeTrade s t oc).state.isTrading = true ∧
      (executeTrade s t oc).dequeued = none) ∧
    (∀ (s : EngineState) (t : String) (oc : BodyOutcome), s.isTrading = false →
      (executeTrade s t oc).state.isTrading = false ∧
      (executeTrade s t oc).dequeued = s.tradingQueue.head? ∧
      (executeTrade s t oc).state.tradingQueue = s.tradingQueue.tail) := by
  constructor
  · intro s t oc h
    simp [executeTrade, h]
  · intro s t oc h
    obtain ⟨st, q⟩ := s
    simp only at h
    subst h
    cases q <;> cases oc <;> simp [executeTrade, processQueue]

/-- Witness for C3: both conjuncts instantiated on concrete states. -/
theorem claim_C3_witness :
    ((executeTrade ⟨true, ["q1"]⟩ "tokA" (BodyOutcome.exn "boom")).buySubmitted = none ∧
     (executeTrade ⟨true, ["q1"]⟩ "tokA" (BodyOutcome.exn "boom")).result.success = false ∧
     (executeTrade ⟨true, ["q1"]⟩ "tokA" (BodyOutcome.exn "boom")).result.error =
       some "Trading in progress" ∧
     (executeTrade ⟨true, ["q1"]⟩ "tokA" (BodyOutcome.exn "boom")).state.tradingQueue =
       (if (["q1"] : List String).length < MAX_QUEUE_SIZE then ["q1"] ++ ["tokA"]
        else ["q1"]) ∧
     (executeTrade ⟨true, ["q1"]⟩ "tokA" (BodyOutcome.exn "boom")).state.isTrading = true ∧
     (executeTrade ⟨true, ["q1"]⟩ "tokA" (BodyOutcome.exn "boom")).dequeued = none) ∧
    ((executeTrade ⟨false, ["q1"]⟩ "tokB" (BodyOutcome.purchaseOk 1 2)).state.isTrading
        = false ∧
     (executeTrade ⟨false, ["q1"]⟩ "tokB" (BodyOutcome.purchaseOk 1 2)).dequeued =
       (["q1"] : List String).head? ∧
     (executeTrade ⟨false, ["q1"]⟩ "tokB" (BodyOutcome.purchaseOk 1 2)).state.tradingQueue =
       (["q1"] : List String).tail) :=
  ⟨claim_C3.1 ⟨true, ["q1"]⟩ "tokA" (BodyOutcome.exn "boom") rfl,
   claim_C3.2 ⟨false, ["q1"]⟩ "tokB" (BodyOutcome.purchaseOk 1 2) rfl⟩

theorem length_filter_add_length_filter_not {α : Type} (l : List α) (f : α → Bool) :
    (l.filter f).length + (l.filter (fun a => !f a)).length = l.length := by
  induction l with
  | nil => rfl
  | cons a l ih => by_cases h : f a <;> simp [List.filter_cons, h, ← ih] <;> omega

/-- Claim C9: `emergencyStop` clears the coordinator queue and in-flight
flag and sweeps every wallet holding through the execution service
(failures counted, never aborting), while the position registry is left
untouched: every tracked position is still tracked with the same record
afterwards. -/
theorem claim_C9 (s : SystemState) (sellOk : String → Bool) :
    (emergencyStop s sellOk).1.positions = s.positions ∧
    (∀ token, ((emergencyStop s sellOk).1.positions).lookup token =
      s.positions.lookup token) ∧
    (emergencyStop s sellOk).1.engine.isTrading = false ∧
    (emergencyStop s sellOk).1.engine.tradingQueue = [] ∧
    (emergencyStop s sellOk).2.total = s.walletHoldings.length ∧
    (emergencyStop s sellOk).2.successful + (emergencyStop s sellOk).2.failed =
      (emergencyStop s sellOk).2.total := by
  refine ⟨rfl, fun _ => rfl, rfl, rfl, rfl, ?_⟩
  simp only [emergencyStop, emergencySellAll]
  exact length_filter_add_length_filter_not s.walletHoldings _

theorem mapSet_lookup (store : List (String × Position)) (k : String) (p : Position) :
    (mapSet store k p).lookup k = some p := by
  induction store with
  | nil => simp [mapSet, List.lookup]
  | cons hd rest ih =>
    obtain ⟨k', p'⟩ := hd
    by_cases h : k' = k
    · subst h
      simp [mapSet, List.lookup]
    · have hbeq : (k == k') = false := by simpa using Ne.symm h
      simp only [mapSet, if_neg h, List.lookup, hbeq]
      exact ih

/-- Claim C10: `addPosition` for a token that already has a tracked
position silently replaces the record with a fresh one: remaining amount
reset to the new entry amount, stop loss recomputed from the new entry
price, both flags reset, executed levels emptied and total-sold reset. -/
theorem claim_C10 (cfg : RiskConfig) (store : List (String × Position))
    (token : String) (old : Position) (entryPrice entryAmount : ℚ)
    (_hold : store.lookup token = some old) :
    (mapSet store token (addPosition cfg token entryPrice entryAmount)).lookup token =
      some (addPosition cfg token entryPrice entryAmount) ∧
    (addPosition cfg token entryPrice entryAmount).remainingAmount = entryAmount ∧
    (addPosition cfg token entryPrice entryAmount).currentStopLoss =
      entryPrice * (1 - cfg.initial_stop_loss_percent / 100) ∧
    (addPosition cfg token entryPrice entryAmount).isBreakevenMoved = false ∧
    (addPosition cfg token entryPrice entryAmount).isTrailingActive = false ∧
    (addPosition cfg token entryPrice entryAmount).executedTpLevels = [] ∧
    (addPosition cfg token entryPrice entryAmount).totalSold = 0 :=
  ⟨mapSet_lookup store token _, rfl, rfl, rfl, rfl, rfl, rfl⟩

/-- Witness for C10: replacing an existing record in a concrete store. -/
theorem claim_C10_witness :
    (mapSet [("t", pA1)] "t" (addPosition cfgA "t" 2 3)).lookup "t" =
      some (addPosition cfgA "t" 2 3) ∧
    (addPosition cfgA "t" 2 3).remainingAmount = 3 ∧
    (addPosition cfgA "t" 2 3).currentStopLoss =
      2 * (1 - cfgA.initial_stop_loss_percent / 100) ∧
    (addPosition cfgA "t" 2 3).isBreakevenMoved = false ∧
    (addPosition cfgA "t" 2 3).isTrailingActive = false ∧
    (addPosition cfgA "t" 2 3).executedTpLevels = [] ∧
    (addPosition cfgA "t" 2 3).totalSold = 0 :=
  claim_C10 cfgA [("t", pA1)] "t" pA1 2 3 rfl

theorem checkTakeProfitGrid_mem_exec (cfg : RiskConfig) (o : SellOracle) (pr : ℚ)
    (p p' : Position) (evs : List Event) (j : ℕ)
    (h : checkTakeProfitGrid cfg o pr p = (some p', evs))
    (hj : j ∈ p'.executedTpLevels) :
    j ∈ p.executedTpLevels ∨ ∃ pct, Event.tpSell j pct true ∈ evs := by
  unfold checkTakeProfitGrid at h
  split at h
  · simp only [Prod.mk.injEq, Option.some.injEq] at h
    obtain ⟨rfl, -⟩ := h
    exact Or.inl hj
  · exact processLevels_mem_exec o pr _ p p' evs j h hj

theorem checkTakeProfitGrid_fail_not_exec (cfg : RiskConfig) (o : SellOracle) (pr : ℚ)
    (p p' : Position) (evs : List Event) (j : ℕ) (pct : ℚ)
    (h : checkTakeProfitGrid cfg o pr p = (some p', evs))
    (hev : Event.tpSell j pct false ∈ evs) :
    j ∉ p'.executedTpLevels := by
  unfold checkTakeProfitGrid at h
  split at h
  · simp only [Prod.mk.injEq, Option.some.injEq] at h
    obtain ⟨-, h2⟩ := h
    rw [← h2] at hev
    simp at hev
  · exact processLevels_fail_not_exec o pr _ p p' evs j pct
      (by rw [List.enum_map_fst]; exact List.nodup_range _)
      h hev

theorem updatePosition_some_nodup (cfg : RiskConfig) (o : SellOracle) (price : ℚ)
    (p p' : Position) (evs : List Event)
    (h : updatePosition cfg o price p = (some p', evs))
    (hnd : p.executedTpLevels.Nodup) : p'.executedTpLevels.Nodup := by
  obtain ⟨q, evspre, evstp, hq1, -, -, -, hg, -, -⟩ :=
    updatePosition_some_decomp cfg o price p p' evs h
  exact checkTakeProfitGrid_some_nodup cfg o _ q p' evstp hg (hq1 ▸ hnd)

/-- Claim C4: across any sequence of ticks a take-profit level index is
recorded in `executedTpLevels` at most once (the list stays duplicate
free); within a tick an index is newly recorded only when that level's
partial sell reported success; and a level whose sell failed is not
recorded by the tick, so it remains eligible on later ticks. -/
theorem claim_C4 :
    (∀ (cfg : RiskConfig) (inputs : List (SellOracle × ℚ)) (p p' : Position),
      p.executedTpLevels.Nodup → run cfg inputs p = some p' →
      p'.executedTpLevels.Nodup) ∧
    (∀ (cfg : RiskConfig) (o : SellOracle) (price : ℚ) (p p' : Position)
        (evs : List Event) (j : ℕ),
      updatePosition cfg o price p = (some p', evs) →
      j ∈ p'.executedTpLevels →
      j ∈ p.executedTpLevels ∨ ∃ pct, Event.tpSell j pct true ∈ evs) ∧
    (∀ (cfg : RiskConfig) (o : SellOracle) (price : ℚ) (p p' : Position)
        (evs : List Event) (j : ℕ) (pct : ℚ),
      updatePosition cfg o price p = (some p', evs) →
      Event.tpSell j pct false ∈ evs →
      j ∉ p'.executedTpLevels) := by
  refine ⟨?_, ?_, ?_⟩
  · intro cfg inputs
    induction inputs with
    | nil =>
      intro p p' hnd h
      rw [run_nil] at h
      exact (Option.some.inj h) ▸ hnd
    | cons hd rest ih =>
      obtain ⟨o, price⟩ := hd
      intro p p' hnd h
      rw [run_cons] at h
      rcases hu : (updatePosition cfg o price p).1 with _ | q
      · rw [hu] at h
        exact Option.noConfusion h
      · rw [hu] at h
        exact ih q p' (updatePosition_some_nodup cfg o price p q
          (updatePosition cfg o price p).2 (by rw [← hu]) hnd) h
  · intro cfg o price p p' evs j h hj
    obtain ⟨q, evspre, evstp, hq1, -, -, -, hg, hevs, -⟩ :=
      updatePosition_some_decomp cfg o price p p' evs h
    rcases checkTakeProfitGrid_mem_exec cfg o _ q p' evstp j hg hj with hin | ⟨pct, hpct⟩
    · exact Or.inl (hq1 ▸ hin)
    · exact Or.inr ⟨pct, by rw [hevs]; exact List.mem_append_right _ hpct⟩
  · intro cfg o price p p' evs j pct h hev
    obtain ⟨q, evspre, evstp, hq1, -, -, -, hg, hevs, hpre⟩ :=
      updatePosition_some_decomp cfg o price p p' evs h
    rw [hevs] at hev
    rcases List.mem_append.mp hev with hev | hev
    · exact absurd (hpre _ hev) (by simp [isTickPreEvent])
    · exact checkTakeProfitGrid_fail_not_exec cfg o _ q p' evstp j pct hg hev

/-- Witness for C4: all three parts instantiated on a concrete two-tick
history in which the take-profit sell first fails and then succeeds. -/
theorem claim_C4_witness :
    (addPosition cfgA "t" 1 1).executedTpLevels.Nodup ∧
    pA2.executedTpLevels.Nodup ∧
    (0 ∈ pA2.executedTpLevels →
      0 ∈ pA1.executedTpLevels ∨
        ∃ pct, Event.tpSell 0 pct true ∈
          [Event.slSell 100 false, Event.tpSell 0 10 true]) ∧
    (0 ∉ pA1.executedTpLevels) := by
  refine ⟨by decide, ?_, ?_, by decide⟩
  · exact claim_C4.1 cfgA [(oracleSlFailTpOk, 11/10)] pA1 pA2 (by decide)
      (by with_unfolding_all decide)
  · intro hj
    exact claim_C4.2.1 cfgA oracleSlFailTpOk (11/10) pA1 pA2
      [Event.slSell 100 false, Event.tpSell 0 10 true] 0
      (by with_unfolding_all decide) hj

/-- Claim C5: within the take-profit scan, each successful partial sell
adds exactly its level's `sellPct` to `totalSold` (the new total is the
old plus the recorded successful percentages, each of which is the
configured level's `sell_percent`), `remainingAmount` is kept equal to
`entryAmount * (1 - totalSold/100)`, and the position is removed by the
scan exactly when the accumulated total reaches the 99.9 full-exit
threshold. -/
theorem claim_C5 :
    (∀ (cfg : RiskConfig) (o : SellOracle) (pr : ℚ) (p p' : Position)
        (evs : List Event),
      checkTakeProfitGrid cfg o pr p = (some p', evs) →
      p'.totalSold = p.totalSold + (successPcts evs).sum ∧
      (p.remainingAmount = p.entryAmount * (1 - p.totalSold / 100) →
        p'.remainingAmount = p'.entryAmount * (1 - p'.totalSold / 100)) ∧
      (p.totalSold < 99.9 → p'.totalSold < 99.9)) ∧
    (∀ (cfg : RiskConfig) (o : SellOracle) (pr : ℚ) (p : Position)
        (evs : List Event),
      checkTakeProfitGrid cfg o pr p = (none, evs) →
      (99.9 : ℚ) ≤ p.totalSold + (successPcts evs).sum) ∧
    (∀ (cfg : RiskConfig) (o : SellOracle) (pr : ℚ) (p : Position)
        (j : ℕ) (pct : ℚ) (b : Bool),
      Event.tpSell j pct b ∈ (checkTakeProfitGrid cfg o pr p).2 →
      ∃ lv, cfg.take_profit_grid.levels[j]? = some lv ∧ pct = lv.sell_percent) := by
  refine ⟨?_, ?_, ?_⟩
  · intro cfg o pr p p' evs h
    unfold checkTakeProfitGrid at h
    split at h
    · simp only [Prod.mk.injEq, Option.some.injEq] at h
      obtain ⟨rfl, rfl⟩ := h
      exact ⟨by simp [successPcts], id, id⟩
    · exact ⟨processLevels_some_totalSold o pr _ p p' evs h,
        processLevels_some_remaining o pr _ p p' evs h,
        processLevels_some_lt o pr _ p p' evs h⟩
  · intro cfg o pr p evs h
    unfold checkTakeProfitGrid at h
    split at h
    · exact absurd (congrArg Prod.fst h) (by simp)
    · exact processLevels_none_threshold o pr _ p evs h
  · intro cfg o pr p j pct b hev
    unfold checkTakeProfitGrid at hev
    split at hev
    · simp at hev
    · obtain ⟨lv, h1, h2⟩ := processLevels_tpSell_pct o pr _ p j pct b hev
      exact ⟨lv, List.mk_mem_enum_iff_getElem?.mp h1, h2⟩

/-- Witness for C5: the parts instantiated on a concrete successful
partial sell (level 0, 10%) of `pA1` at 10% profit. -/
theorem claim_C5_witness :
    (pA2.totalSold = pA1.totalSold + (successPcts [Event.tpSell 0 10 true]).sum ∧
     (pA1.remainingAmount = pA1.entryAmount * (1 - pA1.totalSold / 100) →
       pA2.remainingAmount = pA2.entryAmount * (1 - pA2.totalSold / 100)) ∧
     (pA1.totalSold < 99.9 → pA2.totalSold < 99.9)) ∧
    (∃ lv, cfgA.take_profit_grid.levels[0]? = some lv ∧ (10 : ℚ) = lv.sell_percent) := by
  constructor
  · exact claim_C5.1 cfgA oracleSlFailTpOk 10 pA1 pA2
      [Event.tpSell 0 10 true] (by with_unfolding_all decide)
  · exact claim_C5.2.2 cfgA oracleSlFailTpOk 10 pA1 0 10 true
      (by with_unfolding_all decide)

/-- Claim C6: for a fresh balance fetch, `availableForTrading` is
`max(0, totalBalance - reserve)`; in fixed mode the computed buy amount is
`min(fixedAmount, availableForTrading)`; in percentage mode it is the
percentage of the available balance clamped into `[minAmount, maxAmount]`
and then re-clamped to not exceed `availableForTrading`. -/
theorem claim_C6 (cfg : TokenBuyConfig) (totalBalance : ℚ) :
    (getBalanceFresh cfg totalBalance).availableForTrading =
      max 0 (totalBalance - (getBalanceFresh cfg totalBalance).reservedAmount) ∧
    (cfg.buy_mode = "percentage" →
      (getBalanceFresh cfg totalBalance).calculatedBuyAmount =
        min (clampSpec (jsOr cfg.min_sol_amount 0.01) (jsOr cfg.max_sol_amount 1.0)
              ((getBalanceFresh cfg totalBalance).availableForTrading *
                cfg.balance_percentage / 100))
            ((getBalanceFresh cfg totalBalance).availableForTrading)) ∧
    (cfg.buy_mode ≠ "percentage" →
      (getBalanceFresh cfg totalBalance).calculatedBuyAmount =
        min (jsOr cfg.sol_amount 0.1)
            ((getBalanceFresh cfg totalBalance).availableForTrading)) := by
  refine ⟨rfl, ?_, ?_⟩
  · intro h
    simp only [getBalanceFresh, calculateBuyAmount, if_pos h, clampSpec]
  · intro h
    simp only [getBalanceFresh, calculateBuyAmount, if_neg h]

/-- Witness for C6: both sizing modes instantiated at a concrete balance
of 10 SOL. -/
theorem claim_C6_witness :
    (getBalanceFresh cfgBuyPct 10).calculatedBuyAmount =
      min (clampSpec (jsOr cfgBuyPct.min_sol_amount 0.01) (jsOr cfgBuyPct.max_sol_amount 1.0)
            ((getBalanceFresh cfgBuyPct 10).availableForTrading *
              cfgBuyPct.balance_percentage / 100))
          ((getBalanceFresh cfgBuyPct 10).availableForTrading) ∧
    (getBalanceFresh cfgBuyFixed 10).calculatedBuyAmount =
      min (jsOr cfgBuyFixed.sol_amount 0.1)
          ((getBalanceFresh cfgBuyFixed 10).availableForTrading) :=
  ⟨(claim_C6 cfgBuyPct 10).2.1 rfl, (claim_C6 cfgBuyFixed 10).2.2 (by decide)⟩

theorem calculateBuyAmount_zero_nonpos (cfg : TokenBuyConfig) :
    (calculateBuyAmount cfg 0).1 ≤ 0 := by
  unfold calculateBuyAmount
  split
  · dsimp only
    exact min_le_right _ _
  · dsimp only
    exact min_le_right _ _

theorem reason_ne_12 (q : ℚ) :
    ("Insufficient balance (need " ++ toString q ++ " SOL reserve)") ≠
      "Insufficient balance after reserve" := by
  intro h
  have hl := congrArg String.length h
  rw [String.length_append, String.length_append] at hl
  have h1 : ("Insufficient balance (need ").length = 27 := by decide
  have h2 : (" SOL reserve)").length = 13 := by decide
  have h3 : ("Insufficient balance after reserve").length = 34 := by decide
  omega

theorem reason_ne_13 (q q' : ℚ) :
    ("Insufficient balance (need " ++ toString q ++ " SOL reserve)") ≠
      ("Amount below minimum (" ++ toString q' ++ " SOL)") := by
  intro h
  have hd := congrArg String.data h
  rw [String.data_append, String.data_append, String.data_append,
    String.data_append] at hd
  have := congrArg List.head? hd
  simp at this

theorem reason_ne_23 (q : ℚ) :
    ("Insufficient balance after reserve" : String) ≠
      ("Amount below minimum (" ++ toString q ++ " SOL)") := by
  intro h
  have hd := congrArg String.data h
  rw [String.data_append, String.data_append] at hd
  have := congrArg List.head? hd
  simp at this

/-- Claim C7: on a successful balance fetch, `canAffordTrade` fails with a
distinct reason string when the total balance is below the reserve, when
the computed buy amount is non-positive (which deterministically includes
every fetch with `availableForTrading = 0`), and when the computed amount
is below the configured minimum; it returns true otherwise, and the three
reason strings are pairwise distinct for all configurations. -/
theorem claim_C7 (cfg : TokenBuyConfig) (totalBalance : ℚ) :
    ((getBalanceFresh cfg totalBalance).solBalance <
        (getBalanceFresh cfg totalBalance).reservedAmount →
      (canAffordTrade cfg (getBalanceFresh cfg totalBalance)).canTrade = false ∧
      (canAffordTrade cfg (getBalanceFresh cfg totalBalance)).reason =
        some ("Insufficient balance (need " ++
          toString (getBalanceFresh cfg totalBalance).reservedAmount ++
          " SOL reserve)")) ∧
    (¬((getBalanceFresh cfg totalBalance).solBalance <
        (getBalanceFresh cfg totalBalance).reservedAmount) →
      (getBalanceFresh cfg totalBalance).calculatedBuyAmount ≤ 0 →
      (canAffordTrade cfg (getBalanceFresh cfg totalBalance)).canTrade = false ∧
      (canAffordTrade cfg (getBalanceFresh cfg totalBalance)).reason =
        some "Insufficient balance after reserve") ∧
    ((getBalanceFresh cfg totalBalance).availableForTrading = 0 →
      (canAffordTrade cfg (getBalanceFresh cfg totalBalance)).canTrade = false) ∧
    (¬((getBalanceFresh cfg totalBalance).solBalance <
        (getBalanceFresh cfg totalBalance).reservedAmount) →
      ¬((getBalanceFresh cfg totalBalance).calculatedBuyAmount ≤ 0) →
      (getBalanceFresh cfg totalBalance).calculatedBuyAmount <
        jsOr cfg.min_sol_amount 0.01 →
      (canAffordTrade cfg (getBalanceFresh cfg totalBalance)).canTrade = false ∧
      (canAffordTrade cfg (getBalanceFresh cfg totalBalance)).reason =
        some ("Amount below minimum (" ++ toString (jsOr cfg.min_sol_amount 0.01) ++
          " SOL)")) ∧
    (¬((getBalanceFresh cfg totalBalance).solBalance <
        (getBalanceFresh cfg totalBalance).reservedAmount) →
      ¬((getBalanceFresh cfg totalBalance).calculatedBuyAmount ≤ 0) →
      ¬((getBalanceFresh cfg totalBalance).calculatedBuyAmount <
          jsOr cfg.min_sol_amount 0.01) →
      (canAffordTrade cfg (getBalanceFresh cfg totalBalance)).canTrade = true ∧
      (canAffordTrade cfg (getBalanceFresh cfg totalBalance)).reason = none) ∧
    (∀ q1 q2 : ℚ,
      ("Insufficient balance (need " ++ toString q1 ++ " SOL reserve)") ≠
        "Insufficient balance after reserve" ∧
      ("Insufficient balance (need " ++ toString q1 ++ " SOL reserve)") ≠
        ("Amount below minimum (" ++ toString q2 ++ " SOL)") ∧
      ("Insufficient balance after reserve" : String) ≠
        ("Amount below minimum (" ++ toString q2 ++ " SOL)")) := by
  refine ⟨?_, ?_, ?_, ?_, ?_, ?_⟩
  · intro h1
    simp only [canAffordTrade, if_pos h1]
    constructor <;> trivial
  · intro h1 h2
    simp only [canAffordTrade, if_neg h1, if_pos h2]
    constructor <;> trivial
  · intro h0
    by_cases h1 : (getBalanceFresh cfg totalBalance).solBalance <
        (getBalanceFresh cfg totalBalance).reservedAmount
    · simp only [canAffordTrade, if_pos h1]
    · have h2 : (getBalanceFresh cfg totalBalance).calculatedBuyAmount ≤ 0 := by
        have hcb : (getBalanceFresh cfg totalBalance).calculatedBuyAmount =
            (calculateBuyAmount cfg
              ((getBalanceFresh cfg totalBalance).availableForTrading)).1 := rfl
        rw [hcb, h0]
        exact calculateBuyAmount_zero_nonpos cfg
      simp only [canAffordTrade, if_neg h1, if_pos h2]
  · intro h1 h2 h3
    simp only [canAffordTrade, if_neg h1, if_neg h2, if_pos h3]
    constructor <;> trivial
  · intro h1 h2 h3
    simp only [canAffordTrade, if_neg h1, if_neg h2, if_neg h3]
    constructor <;> trivial
  · intro q1 q2
    exact ⟨reason_ne_12 q1, reason_ne_13 q1 q2, reason_ne_23 q2⟩

/-- Witness for C7: below-reserve rejection at balance 0.1, zero-available
rejection at balance exactly the reserve, and acceptance at balance 10,
all on the shipped-style percentage configuration. -/
theorem claim_C7_witness :
    ((canAffordTrade cfgBuyPct (getBalanceFresh cfgBuyPct (1/10))).canTrade = false ∧
     (canAffordTrade cfgBuyPct (getBalanceFresh cfgBuyPct (1/10))).reason =
       some ("Insufficient balance (need " ++
         toString (getBalanceFresh cfgBuyPct (1/10)).reservedAmount ++
         " SOL reserve)")) ∧
    (canAffordTrade cfgBuyPct (getBalanceFresh cfgBuyPct (1/5))).canTrade = false ∧
    ((canAffordTrade cfgBuyPct (getBalanceFresh cfgBuyPct 10)).canTrade = true ∧
     (canAffordTrade cfgBuyPct (getBalanceFresh cfgBuyPct 10)).reason = none) :=
  ⟨(claim_C7 cfgBuyPct (1/10)).1 (by with_unfolding_all decide),
   (claim_C7 cfgBuyPct (1/5)).2.2.1 (by with_unfolding_all decide),
   (claim_C7 cfgBuyPct 10).2.2.2.2.1 (by with_unfolding_all decide)
     (by with_unfolding_all decide) (by with_unfolding_all decide)⟩

theorem tpAlertCount_append (a b : List Event) :
    tpAlertCount (a ++ b) = tpAlertCount a + tpAlertCount b := by
  simp [tpAlertCount, List.filter_append]

theorem tpFailCount_append (a b : List Event) :
    tpFailCount (a ++ b) = tpFailCount a + tpFailCount b := by
  simp [tpFailCount, List.filter_append]

theorem pre_counts_zero (evs : List Event)
    (h : ∀ e ∈ evs, isTickPreEvent e = true) :
    tpAlertCount evs = 0 ∧ tpFailCount evs = 0 := by
  constructor
  · simp only [tpAlertCount, List.length_eq_zero, List.filter_eq_nil_iff]
    intro e he
    have := h e he
    cases e <;> simp_all [isTickPreEvent]
  · simp only [tpFailCount, List.length_eq_zero, List.filter_eq_nil_iff]
    intro e he
    have := h e he
    cases e <;> simp_all [isTickPreEvent]

theorem checkTakeProfitGrid_alert_eq_fail (cfg : RiskConfig) (o : SellOracle)
    (pr : ℚ) (p : Position) :
    tpAlertCount (checkTakeProfitGrid cfg o pr p).2 =
      tpFailCount (checkTakeProfitGrid cfg o pr p).2 := by
  unfold checkTakeProfitGrid
  split
  · simp [tpAlertCount, tpFailCount]
  · exact processLevels_alert_eq_fail o pr _ p

theorem priceFetchAlerts_replicate (c n : ℕ) :
    priceFetchAlerts c (List.replicate n false) =
      if c < MAX_FAILURES_BEFORE_WARNING ∧ MAX_FAILURES_BEFORE_WARNING ≤ c + n
      then 1 else 0 := by
  induction n generalizing c with
  | zero =>
    simp only [List.replicate, priceFetchAlerts]
    rw [if_neg]
    unfold MAX_FAILURES_BEFORE_WARNING
    omega
  | succ n ih =>
    simp only [List.replicate, priceFetchAlerts, priceFetchStep, trackFailure,
      Bool.false_eq_true, if_false]
    rw [ih]
    unfold MAX_FAILURES_BEFORE_WARNING
    split_ifs <;> simp_all <;> omega

/-- Claim C8 (amended): consecutive price-fetch failures for a token are
tracked with a counter that a success resets, and a single operator alert
fires exactly when the counter reaches the threshold of 3 — so a streak
of `n` straight failures yields one alert when `n ≥ 3` and none before.
Take-profit sell failures, by contrast, alert on every individual
failure: in every tick the number of operator alerts equals the number of
failed take-profit sells. -/
theorem claim_C8 :
    (∀ n : ℕ, priceFetchAlerts 0 (List.replicate n false) =
      if MAX_FAILURES_BEFORE_WARNING ≤ n then 1 else 0) ∧
    (∀ count : ℕ, priceFetchStep count true = (0, false)) ∧
    (∀ (cfg : RiskConfig) (o : SellOracle) (price : ℚ) (p : Position),
      tpAlertCount (updatePosition cfg o price p).2 =
        tpFailCount (updatePosition cfg o price p).2) := by
  refine ⟨?_, ?_, ?_⟩
  · intro n
    rw [priceFetchAlerts_replicate]
    unfold MAX_FAILURES_BEFORE_WARNING
    split_ifs <;> simp_all <;> omega
  · intro count
    rfl
  · intro cfg o price p
    simp only [updatePosition]
    split
    · obtain ⟨ha, hf⟩ := pre_counts_zero _ (checkStopLoss_events o price (bumpHighest price p))
      rw [ha, hf]
    · rw [tpAlertCount_append, tpAlertCount_append, tpAlertCount_append,
        tpFailCount_append, tpFailCount_append, tpFailCount_append]
      obtain ⟨ha1, hf1⟩ := pre_counts_zero _ (checkStopLoss_events o price (bumpHighest price p))
      obtain ⟨ha2, hf2⟩ := pre_counts_zero _ (checkBreakevenMove_events cfg _ (bumpHighest price p))
      obtain ⟨ha3, hf3⟩ := pre_counts_zero _ (checkTrailingStopActivation_events cfg _ _)
      rw [ha1, hf1, ha2, hf2, ha3, hf3, checkTakeProfitGrid_alert_eq_fail]

/-- Counterexample to C8 as frozen: a single, first-ever failed
take-profit sell already produces an operator alert (`notifyError`) in
that same tick — one alert for one consecutive failure — instead of a
single alert only once 3 consecutive failures accumulate. -/
theorem claim_C8_counterexample :
    tpAlertCount
      (updatePosition cfgA oracleAllFail (13/10) (addPosition cfgA "t" 1 1)).2 = 1 ∧
    tpFailCount
      (updatePosition cfgA oracleAllFail (13/10) (addPosition cfgA "t" 1 1)).2 = 1 := by
  with_unfolding_all decide

end SolanaBot
